import Mathlib

/-!
Shallow embedding of the bilibili_analyzer scoring core and proofs about it.

The embedded code is the scoring engine of the repository:
- `BusinessLayer.calculate_time_stability`, `calculate_quality_stability`,
  `evaluate_up_stability` from `core_services.py` (the same algorithms appear
  in `src/core/analyzer.py` as `StabilityAnalyzer`);
- `InteractionAnalyzer.analyze_interaction_level`, `_evaluate_metric` and
  `load_benchmarks` from `interaction_analyzer.py`.

Modelling conventions:
- Python ints become `ℤ`; exact Python float arithmetic on these values is
  modelled over `ℚ` where the code only divides, and over `ℝ` where the code
  takes a square root (`np.std`).
- `np.mean` / `np.std` are the arithmetic mean and the population standard
  deviation (square root of the population variance).
- Python `round(x, 3)` is round-half-to-even at the third decimal.
- Division that Python would fault on (ZeroDivisionError) is modelled with an
  `Option`-valued guarded division, so absence of a fault is provable.
- The file read plus JSON parse inside `load_benchmarks` is abstracted as an
  `Except String BenchmarkTable` argument: `Except.error` stands for any load
  failure (missing, malformed or unreadable file), `Except.ok` for a parsed
  table. The `try/except` of the source becomes a `match` on that argument.
- The performance-monitor instrumentation wrapping each call in the source is
  incidental (it never changes a returned value) and is not modelled.
-/

namespace BilibiliAnalyzer

/-- A video record as consumed by the analyzers: the integer fields `view`,
`like`, `coin`, `favorite`, `danmaku`, `reply` of the dicts built in
`analyzer.py` (`danmaku`/`reply` default to 0 at the boundary when absent). -/
structure Video where
  view : ℤ
  like : ℤ
  coin : ℤ
  favorite : ℤ
  danmaku : ℤ
  reply : ℤ
  deriving DecidableEq

/-- Arithmetic mean of a list of rationals, as `np.mean` computes it
(sum divided by length; the code only applies it to nonempty lists). -/
def npMean (l : List ℚ) : ℚ := l.sum / (l.length : ℚ)

/-- Population variance, the square of `np.std`. -/
def npVar (l : List ℚ) : ℚ := (l.map (fun x => (x - npMean l) ^ 2)).sum / (l.length : ℚ)

/-- Population standard deviation, `np.std`. -/
noncomputable def npStd (l : List ℚ) : ℝ := Real.sqrt ((npVar l : ℚ) : ℝ)

/-- Insert into a sorted list, ascending. -/
def insertSorted (x : ℤ) : List ℤ → List ℤ
  | [] => [x]
  | y :: ys => if x ≤ y then x :: y :: ys else y :: insertSorted x ys

/-- Python `sorted` on integer lists (insertion sort, ascending). -/
def sortList : List ℤ → List ℤ
  | [] => []
  | x :: xs => insertSorted x (sortList xs)

/-- Consecutive differences, `np.diff`. -/
def diffs : List ℤ → List ℤ
  | a :: b :: rest => (b - a) :: diffs (b :: rest)
  | _ => []

/-- Python `np.mean(xs) if xs else 0` for a rational list. -/
def meanOrZero (l : List ℚ) : ℚ := if l = [] then 0 else npMean l

/-- Python `np.mean(xs) if xs else 0` for an integer list (exact mean). -/
def intMeanOrZero (l : List ℤ) : ℚ := if l = [] then 0 else ((l.sum : ℚ) / (l.length : ℚ))

/-- The result record of `analyze_interaction_level`. -/
structure InteractionMetrics where
  like_rate : ℚ
  coin_rate : ℚ
  favorite_rate : ℚ
  danmaku_density : ℚ
  comment_rate : ℚ
  video_count : ℕ
  avg_views : ℚ
  deriving DecidableEq

/-- Embeds `InteractionAnalyzer.analyze_interaction_level`
(`interaction_analyzer.py`, lines 40-70): extract the metric columns, zip each
against the view column, keep ratios only where the view count is positive,
and average each ratio list (0 when it is empty). `danmaku` ratios carry the
extra `*60` factor. Returns `none` on an empty input list. -/
def analyze_interaction_level (user_videos : List Video) : Option InteractionMetrics :=
  if user_videos = [] then none
  else
    let views := user_videos.map Video.view
    let likes := user_videos.map Video.like
    let coins := user_videos.map Video.coin
    let favorites := user_videos.map Video.favorite
    let danmakus := user_videos.map Video.danmaku
    let replies := user_videos.map Video.reply
    let like_rates := (likes.zip views).filterMap
      (fun p => if 0 < p.2 then some ((p.1 : ℚ) / (p.2 : ℚ)) else none)
    let coin_rates := (coins.zip views).filterMap
      (fun p => if 0 < p.2 then some ((p.1 : ℚ) / (p.2 : ℚ)) else none)
    let favorite_rates := (favorites.zip views).filterMap
      (fun p => if 0 < p.2 then some ((p.1 : ℚ) / (p.2 : ℚ)) else none)
    let danmaku_densities := (danmakus.zip views).filterMap
      (fun p => if 0 < p.2 then some ((p.1 : ℚ) / (p.2 : ℚ) * 60) else none)
    let comment_rates := (replies.zip views).filterMap
      (fun p => if 0 < p.2 then some ((p.1 : ℚ) / (p.2 : ℚ)) else none)
    some ⟨meanOrZero like_rates, meanOrZero coin_rates, meanOrZero favorite_rates,
      meanOrZero danmaku_densities, meanOrZero comment_rates,
      user_videos.length, intMeanOrZero views⟩

/-- Spec-side formulation for the rate fields of `analyze_interaction_level`:
the arithmetic mean of the per-video ratio `metric/view` over exactly the
videos with a positive view count, 0 when no video qualifies. -/
def perVideoRateMean (metric : Video → ℤ) (videos : List Video) : ℚ :=
  meanOrZero ((videos.filter (fun v => 0 < v.view)).map
    (fun v => (metric v : ℚ) / (v.view : ℚ)))

/-- Spec-side formulation for `danmaku_density`: the same filtered mean with
the extra factor 60 on each per-video ratio. -/
def perVideoDanmakuMean (videos : List Video) : ℚ :=
  meanOrZero ((videos.filter (fun v => 0 < v.view)).map
    (fun v => (v.danmaku : ℚ) / (v.view : ℚ) * 60))

/-- Division as Python performs it: `none` models a ZeroDivisionError. -/
def guardedDiv (a b : ℚ) : Option ℚ := if b = 0 then none else some (a / b)

/-- Embeds the score computation of `InteractionAnalyzer._evaluate_metric`
(`interaction_analyzer.py`, lines 132-145). The source has no zero check on
either denominator; a division Python would fault on yields `none`. The emoji
and bar of the source are report formatting and are not modelled. -/
def evaluate_metric (user_value startup_bench current_bench : ℚ) : Option ℚ :=
  if current_bench ≤ user_value then some 1
  else if startup_bench ≤ user_value then
    guardedDiv (user_value - startup_bench) (current_bench - startup_bench)
  else guardedDiv user_value startup_bench

/-- One `engagement_standards` block of the benchmark table. -/
structure EngagementStandards where
  like_rate_benchmark : ℚ
  coin_rate_benchmark : ℚ
  good_performance_threshold : ℚ
  deriving DecidableEq

/-- The benchmark table: the `startup_benchmarks` and `current_benchmarks`
sections (each holding its `engagement_standards` block, flattened here). -/
structure BenchmarkTable where
  startup_benchmarks : EngagementStandards
  current_benchmarks : EngagementStandards
  deriving DecidableEq

/-- The hardcoded default table of `load_benchmarks`. -/
def defaultBenchmarks : BenchmarkTable :=
  ⟨⟨0.0436, 0.0101, 0.0499⟩, ⟨0.0439, 0.0075, 0.0552⟩⟩

/-- Embeds `InteractionAnalyzer.load_benchmarks` (`interaction_analyzer.py`,
lines 16-38): the file open plus JSON parse is abstracted as an
`Except String BenchmarkTable`; the bare `except:` of the source catches every
load failure and substitutes the hardcoded default table. -/
def load_benchmarks (readResult : Except String BenchmarkTable) : BenchmarkTable :=
  match readResult with
  | Except.ok table => table
  | Except.error _ => defaultBenchmarks

/-- The `intervals` variable of `calculate_time_stability`:
`np.diff(sorted(timestamps))`, viewed as exact rationals for the statistics. -/
def intervalsOf (timestamps : List ℤ) : List ℚ :=
  (diffs (sortList timestamps)).map (fun (i : ℤ) => (i : ℚ))

/-- The `baseline_cycle` variable of `calculate_time_stability`:
`max(avg_interval, 24 * 3600)`, at least one day. -/
def baselineCycle (timestamps : List ℤ) : ℚ :=
  max (npMean (intervalsOf timestamps)) (24 * 3600)

/-- Embeds `BusinessLayer.calculate_time_stability` (`core_services.py`,
lines 102-122): fewer than 2 timestamps give the neutral 0.5; otherwise the
intervals of the sorted timestamps are scored by
`min(1 / (1 + std_seconds / baseline_cycle), 1.0)`. -/
noncomputable def calculate_time_stability (timestamps : List ℤ) : ℝ :=
  if timestamps.length < 2 then 0.5
  else
    min (1 / (1 + npStd (intervalsOf timestamps) / ((baselineCycle timestamps : ℚ) : ℝ))) 1

/-- The triple-rate list of `calculate_quality_stability`: for each video with
a positive view count, `(like + coin + favorite) / view`. -/
def tripleRates (videos_data : List Video) : List ℚ :=
  videos_data.filterMap
    (fun v => if 0 < v.view then
        some (((v.like + v.coin + v.favorite : ℤ) : ℚ) / (v.view : ℚ))
      else none)

/-- The `relative_std` variable of `calculate_quality_stability`:
`rate_std / avg_rate` when `avg_rate > 0`, else the sentinel 1.0. -/
noncomputable def qualityRelativeStd (videos_data : List Video) : ℝ :=
  if 0 < npMean (tripleRates videos_data) then
    npStd (tripleRates videos_data) / ((npMean (tripleRates videos_data) : ℚ) : ℝ)
  else 1

/-- Embeds `BusinessLayer.calculate_quality_stability` (`core_services.py`,
lines 124-155): neutral 0.5 for fewer than 2 videos or when no video has a
positive view count; otherwise `min(1 / (1 + relative_std), 1.0)` over the
triple rates. -/
noncomputable def calculate_quality_stability (videos_data : List Video) : ℝ :=
  if videos_data.length < 2 then 0.5
  else if tripleRates videos_data = [] then 0.5
  else min (1 / (1 + qualityRelativeStd videos_data)) 1

/-- The unrounded overall score of `evaluate_up_stability`:
time stability weighted 0.6, quality stability weighted 0.4. -/
noncomputable def overall_stability_value (timestamps : List ℤ) (videos_data : List Video) : ℝ :=
  calculate_time_stability timestamps * 0.6 + calculate_quality_stability videos_data * 0.4

open scoped Classical in
/-- The tier chain of `evaluate_up_stability` (`core_services.py`,
lines 171-183): level and emoji from the unrounded overall score. -/
noncomputable def stability_tier (overall : ℝ) : String × String :=
  if 0.8 ≤ overall then ("优秀", "🏆")
  else if 0.6 ≤ overall then ("良好", "⭐")
  else if 0.4 ≤ overall then ("一般", "📊")
  else ("待提升", "💡")

open scoped Classical in
/-- Python `round` to an integer: round-half-to-even. -/
noncomputable def roundHalfEven (y : ℝ) : ℤ :=
  if y - ⌊y⌋ < 1 / 2 then ⌊y⌋
  else if 1 / 2 < y - ⌊y⌋ then ⌊y⌋ + 1
  else if Even ⌊y⌋ then ⌊y⌋ else ⌊y⌋ + 1

/-- Python `round(x, 3)`. -/
noncomputable def round3 (x : ℝ) : ℝ := ((roundHalfEven (x * 1000) : ℤ) : ℝ) / 1000

/-- The result record of `evaluate_up_stability`. -/
structure StabilityResult where
  time_stability : ℝ
  quality_stability : ℝ
  overall_stability : ℝ
  stability_level : String
  level_emoji : String
  video_count : ℕ

/-- Embeds `BusinessLayer.evaluate_up_stability` (`core_services.py`,
lines 157-195): the two sub-scores, their 0.6/0.4 weighted sum, the tier of
the unrounded sum, all float fields rounded to 3 decimals, and the length of
the video list as `video_count`. -/
noncomputable def evaluate_up_stability (timestamps : List ℤ) (videos_data : List Video) :
    StabilityResult :=
  ⟨round3 (calculate_time_stability timestamps),
    round3 (calculate_quality_stability videos_data),
    round3 (overall_stability_value timestamps videos_data),
    (stability_tier (overall_stability_value timestamps videos_data)).1,
    (stability_tier (overall_stability_value timestamps videos_data)).2,
    videos_data.length⟩

/-! Helper lemmas. -/

theorem mem_insertSorted {x a : ℤ} {l : List ℤ} (h : a ∈ insertSorted x l) :
    a = x ∨ a ∈ l := by
  induction l with
  | nil =>
    simp only [insertSorted, List.mem_singleton] at h
    exact Or.inl h
  | cons y ys ih =>
    rw [insertSorted] at h
    by_cases hxy : x ≤ y
    · rw [if_pos hxy] at h
      simp only [List.mem_cons] at h ⊢
      tauto
    · rw [if_neg hxy] at h
      simp only [List.mem_cons] at h ⊢
      rcases h with h | h
      · tauto
      · rcases ih h with h | h <;> tauto

theorem mem_sortList {a : ℤ} {l : List ℤ} (h : a ∈ sortList l) : a ∈ l := by
  induction l with
  | nil => simp [sortList] at h
  | cons x xs ih =>
    rw [sortList] at h
    rcases mem_insertSorted h with h | h
    · simp [h]
    · simp [ih h]

theorem diffs_eq_zero_of_const (l : List ℤ) (c : ℤ) (hc : ∀ x ∈ l, x = c) :
    ∀ y ∈ diffs l, y = 0 := by
  induction l with
  | nil => intro y hy; simp [diffs] at hy
  | cons a t ih =>
    intro y hy
    cases t with
    | nil => simp [diffs] at hy
    | cons b r =>
      rw [diffs] at hy
      rcases List.mem_cons.mp hy with h1 | h2
      · have ha : a = c := hc a (by simp)
        have hb : b = c := hc b (by simp)
        omega
      · exact ih (fun x hx => hc x (List.mem_cons_of_mem _ hx)) y h2

theorem npStd_nonneg (l : List ℚ) : 0 ≤ npStd l := Real.sqrt_nonneg _

theorem inv_succ_mem (r : ℝ) (hr : 0 ≤ r) :
    0 ≤ min (1 / (1 + r)) 1 ∧ min (1 / (1 + r)) 1 ≤ 1 :=
  ⟨le_min (div_nonneg zero_le_one (by linarith)) zero_le_one, min_le_right _ _⟩

theorem baselineCycle_pos (timestamps : List ℤ) :
    (0 : ℝ) < ((baselineCycle timestamps : ℚ) : ℝ) := by
  have h : (0 : ℚ) < baselineCycle timestamps :=
    lt_of_lt_of_le (by norm_num) (le_max_right _ _)
  exact_mod_cast h

theorem time_stability_mem (ts : List ℤ) :
    0 ≤ calculate_time_stability ts ∧ calculate_time_stability ts ≤ 1 := by
  rw [calculate_time_stability]
  split
  · norm_num
  · exact inv_succ_mem _ (div_nonneg (npStd_nonneg _) (baselineCycle_pos _).le)

theorem qualityRelativeStd_nonneg (vs : List Video) : 0 ≤ qualityRelativeStd vs := by
  rw [qualityRelativeStd]
  split
  · refine div_nonneg (npStd_nonneg _) ?_
    have h : (0 : ℚ) ≤ npMean (tripleRates vs) := le_of_lt (by assumption)
    exact_mod_cast h
  · norm_num

theorem quality_stability_mem (vs : List Video) :
    0 ≤ calculate_quality_stability vs ∧ calculate_quality_stability vs ≤ 1 := by
  rw [calculate_quality_stability]
  split
  · norm_num
  · split
    · norm_num
    · exact inv_succ_mem _ (qualityRelativeStd_nonneg vs)

theorem roundHalfEven_nonneg {y : ℝ} (hy : 0 ≤ y) : 0 ≤ roundHalfEven y := by
  have h0 : 0 ≤ ⌊y⌋ := Int.floor_nonneg.mpr hy
  rw [roundHalfEven]
  by_cases h1 : y - ⌊y⌋ < 1 / 2
  · rw [if_pos h1]; exact h0
  · rw [if_neg h1]
    by_cases h2 : 1 / 2 < y - ⌊y⌋
    · rw [if_pos h2]; omega
    · rw [if_neg h2]
      by_cases h3 : Even ⌊y⌋
      · rw [if_pos h3]; exact h0
      · rw [if_neg h3]; omega

theorem roundHalfEven_le {y : ℝ} {n : ℤ} (h : y ≤ (n : ℝ)) : roundHalfEven y ≤ n := by
  have hfl : ⌊y⌋ ≤ n := by
    have hf := Int.floor_le_floor h
    simpa using hf
  rw [roundHalfEven]
  by_cases h1 : y - ⌊y⌋ < 1 / 2
  · rw [if_pos h1]; exact hfl
  · have hh : ((⌊y⌋ : ℝ)) + 1 / 2 ≤ y := by
      push_neg at h1
      linarith
    have hlt : ⌊y⌋ < n := by
      have hr : ((⌊y⌋ : ℝ)) < (n : ℝ) := by linarith
      exact_mod_cast hr
    rw [if_neg h1]
    by_cases h2 : 1 / 2 < y - ⌊y⌋
    · rw [if_pos h2]; omega
    · rw [if_neg h2]
      by_cases h3 : Even ⌊y⌋
      · rw [if_pos h3]; omega
      · rw [if_neg h3]; omega

theorem round3_mem {x : ℝ} (h0 : 0 ≤ x) (h1 : x ≤ 1) :
    0 ≤ round3 x ∧ round3 x ≤ 1 := by
  have ha : 0 ≤ roundHalfEven (x * 1000) :=
    roundHalfEven_nonneg (mul_nonneg h0 (by norm_num))
  have hb : roundHalfEven (x * 1000) ≤ (1000 : ℤ) := by
    apply roundHalfEven_le
    push_cast
    linarith
  constructor
  · rw [round3]
    exact div_nonneg (by exact_mod_cast ha) (by norm_num)
  · rw [round3, div_le_one (by norm_num : (0 : ℝ) < 1000)]
    exact_mod_cast hb

theorem time_stability_all_eq (l : List ℤ) (c : ℤ) (h2 : 2 ≤ l.length)
    (hc : ∀ x ∈ l, x = c) : calculate_time_stability l = 1 := by
  have hall : ∀ y ∈ intervalsOf l, y = 0 := by
    intro y hy
    rw [intervalsOf] at hy
    rcases List.mem_map.mp hy with ⟨i, hi, rfl⟩
    have hz : i = 0 :=
      diffs_eq_zero_of_const (sortList l) c (fun x hx => hc x (mem_sortList hx)) i hi
    simp [hz]
  have hsum : (intervalsOf l).sum = 0 := List.sum_eq_zero hall
  have hmean : npMean (intervalsOf l) = 0 := by
    rw [npMean, hsum, zero_div]
  have hvar : npVar (intervalsOf l) = 0 := by
    rw [npVar]
    have hs : ((intervalsOf l).map (fun x => (x - npMean (intervalsOf l)) ^ 2)).sum = 0 := by
      apply List.sum_eq_zero
      intro y hy
      rcases List.mem_map.mp hy with ⟨x, hx, rfl⟩
      rw [hall x hx, hmean]
      norm_num
    rw [hs, zero_div]
  have hstd : npStd (intervalsOf l) = 0 := by
    rw [npStd, hvar]
    simp
  have hbase : baselineCycle l = 24 * 3600 := by
    rw [baselineCycle, hmean]
    exact max_eq_right (by norm_num)
  rw [calculate_time_stability, if_neg (by omega : ¬ l.length < 2), hstd, hbase]
  norm_num

theorem zip_rate_comprehension (l : List Video) (f : Video → ℤ) (r : ℤ → ℤ → ℚ) :
    ((l.map f).zip (l.map Video.view)).filterMap
        (fun p => if 0 < p.2 then some (r p.1 p.2) else none) =
      (l.filter (fun v => 0 < v.view)).map (fun v => r (f v) v.view) := by
  induction l with
  | nil => rfl
  | cons a t ih =>
    by_cases h : 0 < a.view
    · simp [List.filterMap_cons, List.filter_cons, h, ih]
    · simp [List.filterMap_cons, List.filter_cons, h, ih]

theorem like_rates_eq (l : List Video) :
    ((l.map Video.like).zip (l.map Video.view)).filterMap
        (fun p => if 0 < p.2 then some ((p.1 : ℚ) / (p.2 : ℚ)) else none) =
      (l.filter (fun v => 0 < v.view)).map (fun v => (v.like : ℚ) / (v.view : ℚ)) :=
  zip_rate_comprehension l Video.like (fun a b => (a : ℚ) / (b : ℚ))

theorem coin_rates_eq (l : List Video) :
    ((l.map Video.coin).zip (l.map Video.view)).filterMap
        (fun p => if 0 < p.2 then some ((p.1 : ℚ) / (p.2 : ℚ)) else none) =
      (l.filter (fun v => 0 < v.view)).map (fun v => (v.coin : ℚ) / (v.view : ℚ)) :=
  zip_rate_comprehension l Video.coin (fun a b => (a : ℚ) / (b : ℚ))

theorem favorite_rates_eq (l : List Video) :
    ((l.map Video.favorite).zip (l.map Video.view)).filterMap
        (fun p => if 0 < p.2 then some ((p.1 : ℚ) / (p.2 : ℚ)) else none) =
      (l.filter (fun v => 0 < v.view)).map (fun v => (v.favorite : ℚ) / (v.view : ℚ)) :=
  zip_rate_comprehension l Video.favorite (fun a b => (a : ℚ) / (b : ℚ))

theorem danmaku_densities_eq (l : List Video) :
    ((l.map Video.danmaku).zip (l.map Video.view)).filterMap
        (fun p => if 0 < p.2 then some ((p.1 : ℚ) / (p.2 : ℚ) * 60) else none) =
      (l.filter (fun v => 0 < v.view)).map (fun v => (v.danmaku : ℚ) / (v.view : ℚ) * 60) :=
  zip_rate_comprehension l Video.danmaku (fun a b => (a : ℚ) / (b : ℚ) * 60)

theorem comment_rates_eq (l : List Video) :
    ((l.map Video.reply).zip (l.map Video.view)).filterMap
        (fun p => if 0 < p.2 then some ((p.1 : ℚ) / (p.2 : ℚ)) else none) =
      (l.filter (fun v => 0 < v.view)).map (fun v => (v.reply : ℚ) / (v.view : ℚ)) :=
  zip_rate_comprehension l Video.reply (fun a b => (a : ℚ) / (b : ℚ))

theorem analyze_video_count (videos : List Video) (h : videos ≠ []) :
    ∃ m, analyze_interaction_level videos = some m ∧ m.video_count = videos.length := by
  cases videos with
  | nil => exact absurd rfl h
  | cons a t => exact ⟨_, rfl, rfl⟩

/-! Claim theorems. -/

/-- C1: for every list of timestamps and every list of video records,
`evaluate_up_stability` returns a result whose `overall_stability` lies in
[0, 1] and equals `round(time_stability * 0.6 + quality_stability * 0.4, 3)`,
where the sub-scores are the ones computed for the same inputs. -/
theorem overall_stability_weighted (ts : List ℤ) (vs : List Video) :
    0 ≤ (evaluate_up_stability ts vs).overall_stability ∧
      (evaluate_up_stability ts vs).overall_stability ≤ 1 ∧
      (evaluate_up_stability ts vs).overall_stability =
        round3 (calculate_time_stability ts * 0.6 + calculate_quality_stability vs * 0.4) := by
  have ht := time_stability_mem ts
  have hq := quality_stability_mem vs
  have h0 : 0 ≤ overall_stability_value ts vs := by
    rw [overall_stability_value]
    have ha := mul_nonneg ht.1 (by norm_num : (0 : ℝ) ≤ 0.6)
    have hb := mul_nonneg hq.1 (by norm_num : (0 : ℝ) ≤ 0.4)
    linarith
  have h1 : overall_stability_value ts vs ≤ 1 := by
    rw [overall_stability_value]
    have ha := mul_le_mul_of_nonneg_right ht.2 (by norm_num : (0 : ℝ) ≤ 0.6)
    have hb := mul_le_mul_of_nonneg_right hq.2 (by norm_num : (0 : ℝ) ≤ 0.4)
    rw [one_mul] at ha hb
    linarith
  obtain ⟨ha, hb⟩ := round3_mem h0 h1
  exact ⟨ha, hb, rfl⟩

/-- C2: the tier of `evaluate_up_stability` is inclusive at each lower bound
of the unrounded overall score: `[0.8, _] → 优秀`, `[0.6, 0.8) → 良好`,
`[0.4, 0.6) → 一般`, below 0.4 → 待提升. -/
theorem stability_tier_inclusive (ts : List ℤ) (vs : List Video) :
    (0.8 ≤ overall_stability_value ts vs →
      (evaluate_up_stability ts vs).stability_level = "优秀") ∧
    (0.6 ≤ overall_stability_value ts vs → overall_stability_value ts vs < 0.8 →
      (evaluate_up_stability ts vs).stability_level = "良好") ∧
    (0.4 ≤ overall_stability_value ts vs → overall_stability_value ts vs < 0.6 →
      (evaluate_up_stability ts vs).stability_level = "一般") ∧
    (overall_stability_value ts vs < 0.4 →
      (evaluate_up_stability ts vs).stability_level = "待提升") := by
  refine ⟨fun h8 => ?_, fun h6 h8 => ?_, fun h4 h6 => ?_, fun h4 => ?_⟩
  · show (stability_tier (overall_stability_value ts vs)).1 = _
    rw [stability_tier, if_pos h8]
  · show (stability_tier (overall_stability_value ts vs)).1 = _
    rw [stability_tier, if_neg (not_le.mpr h8), if_pos h6]
  · show (stability_tier (overall_stability_value ts vs)).1 = _
    rw [stability_tier, if_neg (not_le.mpr (by linarith)), if_neg (not_le.mpr h6), if_pos h4]
  · show (stability_tier (overall_stability_value ts vs)).1 = _
    rw [stability_tier, if_neg (not_le.mpr (by linarith)), if_neg (not_le.mpr (by linarith)),
      if_neg (not_le.mpr h4)]

/-- C2 witness: two equal timestamps and no videos give time stability 1 and
quality stability 0.5, hence overall exactly 0.8, the inclusive boundary of
the top tier. -/
theorem stability_tier_inclusive_witness :
    (evaluate_up_stability [0, 0] []).stability_level = "优秀" := by
  have ht : calculate_time_stability [0, 0] = 1 :=
    time_stability_all_eq [0, 0] 0 (by decide) (by decide)
  have hq : calculate_quality_stability [] = 0.5 := by
    rw [calculate_quality_stability, if_pos (by decide : ([] : List Video).length < 2)]
  have ho : 0.8 ≤ overall_stability_value [0, 0] [] := by
    rw [overall_stability_value, ht, hq]
    norm_num
  exact (stability_tier_inclusive [0, 0] []).1 ho

/-- C4: for every list of fewer than 2 timestamps (the empty list included),
`calculate_time_stability` returns exactly 0.5. -/
theorem time_stability_neutral_short (ts : List ℤ) (h : ts.length < 2) :
    calculate_time_stability ts = 0.5 := by
  rw [calculate_time_stability, if_pos h]

/-- C4 witness: the empty list and a one-element list. -/
theorem time_stability_neutral_short_witness :
    ([] : List ℤ).length < 2 ∧ calculate_time_stability [] = 0.5 ∧
      ([42] : List ℤ).length < 2 ∧ calculate_time_stability [42] = 0.5 :=
  ⟨by decide, time_stability_neutral_short [] (by decide), by decide,
    time_stability_neutral_short [42] (by decide)⟩

/-- C5: for every list of 2 or more identical timestamps,
`calculate_time_stability` returns exactly 1: all intervals are 0, their
population standard deviation is 0, and the baseline cycle is floored at
86400, so the relative volatility is 0. -/
theorem time_stability_identical (ts : List ℤ) (c : ℤ) (h2 : 2 ≤ ts.length)
    (hc : ∀ x ∈ ts, x = c) : calculate_time_stability ts = 1 :=
  time_stability_all_eq ts c h2 hc

/-- C5 witness: the two-element constant list `[5, 5]`. -/
theorem time_stability_identical_witness :
    2 ≤ ([5, 5] : List ℤ).length ∧ calculate_time_stability [5, 5] = 1 :=
  ⟨by decide, time_stability_identical [5, 5] 5 (by decide) (by decide)⟩

/-- C3 counterexample: at `user_value = 1/100 > 0`, `startup_bench = 0`,
`current_bench = 1`, the claimed zero-guard demands score 1.0, but the code
takes the interpolation branch (`user_value >= startup_bench` holds) and
returns `(1/100 - 0) / (1 - 0) = 1/100 ≠ 1`. -/
theorem evaluate_metric_zero_guard_cex :
    evaluate_metric (1 / 100) 0 1 = some (1 / 100) ∧
      some ((1 : ℚ) / 100) ≠ some (1 : ℚ) := by
  constructor
  · rw [evaluate_metric, if_neg (by norm_num : ¬ (1 : ℚ) ≤ 1 / 100),
      if_pos (by norm_num : (0 : ℚ) ≤ 1 / 100), guardedDiv,
      if_neg (by norm_num : (1 : ℚ) - 0 ≠ 0)]
    norm_num
  · intro hcontra
    rw [Option.some_inj] at hcontra
    norm_num at hcontra

/-- C3 amended: `_evaluate_metric` implements the three-branch rule with plain
division and no special case for `startup_bench = 0`; for every nonnegative
`user_value` each reachable division has a nonzero denominator, so in
particular when `startup_bench = 0` one of the first two branches applies. -/
theorem evaluate_metric_rule (uv sb cb : ℚ) (h : 0 ≤ uv) :
    evaluate_metric uv sb cb =
      some (if cb ≤ uv then 1
        else if sb ≤ uv then (uv - sb) / (cb - sb)
        else uv / sb) := by
  rw [evaluate_metric]
  by_cases h1 : cb ≤ uv
  · rw [if_pos h1, if_pos h1]
  · rw [if_neg h1, if_neg h1]
    by_cases h2 : sb ≤ uv
    · have hne : cb - sb ≠ 0 :=
        sub_ne_zero.mpr (ne_of_gt (lt_of_le_of_lt h2 (not_le.mp h1)))
      rw [if_pos h2, if_pos h2, guardedDiv, if_neg hne]
    · have hne : sb ≠ 0 := (lt_of_le_of_lt h (not_le.mp h2)).ne'
      rw [if_neg h2, if_neg h2, guardedDiv, if_neg hne]

/-- C3 witness: the interpolation branch at `user_value = 1`,
`startup_bench = 2`, `current_bench = 4` is reached with `0 ≤ 1`. -/
theorem evaluate_metric_rule_witness :
    evaluate_metric 1 2 4 =
      some (if (4 : ℚ) ≤ 1 then 1
        else if (2 : ℚ) ≤ 1 then ((1 : ℚ) - 2) / (4 - 2)
        else (1 : ℚ) / 2) :=
  evaluate_metric_rule 1 2 4 (by decide)

/-- C6: each rate field of `analyze_interaction_level` is the mean of the
per-video ratio `metric/view` over exactly the videos with positive views
(0 when none qualifies), `danmaku_density` carries the extra factor 60, and
`avg_views` is the mean of `view` over all input videos, unfiltered. -/
theorem interaction_rates_filtered_means (videos : List Video) (h : videos ≠ []) :
    analyze_interaction_level videos =
      some ⟨perVideoRateMean Video.like videos, perVideoRateMean Video.coin videos,
        perVideoRateMean Video.favorite videos, perVideoDanmakuMean videos,
        perVideoRateMean Video.reply videos, videos.length,
        (((videos.map Video.view).sum : ℤ) : ℚ) / (videos.length : ℚ)⟩ := by
  have hv : videos.map Video.view ≠ [] := fun hnil => h (List.map_eq_nil_iff.mp hnil)
  simp only [analyze_interaction_level, if_neg h]
  rw [like_rates_eq, coin_rates_eq, favorite_rates_eq, danmaku_densities_eq,
    comment_rates_eq, intMeanOrZero, if_neg hv, List.length_map]
  rw [perVideoRateMean, perVideoRateMean, perVideoRateMean, perVideoRateMean,
    perVideoDanmakuMean]

/-- C6 witness: one video with 1000 views, 50 likes, 10 coins, 5 favorites. -/
theorem interaction_rates_filtered_means_witness :
    analyze_interaction_level [⟨1000, 50, 10, 5, 0, 0⟩] =
      some ⟨perVideoRateMean Video.like [⟨1000, 50, 10, 5, 0, 0⟩],
        perVideoRateMean Video.coin [⟨1000, 50, 10, 5, 0, 0⟩],
        perVideoRateMean Video.favorite [⟨1000, 50, 10, 5, 0, 0⟩],
        perVideoDanmakuMean [⟨1000, 50, 10, 5, 0, 0⟩],
        perVideoRateMean Video.reply [⟨1000, 50, 10, 5, 0, 0⟩],
        ([⟨1000, 50, 10, 5, 0, 0⟩] : List Video).length,
        (((([⟨1000, 50, 10, 5, 0, 0⟩] : List Video).map Video.view).sum : ℤ) : ℚ) /
          (([⟨1000, 50, 10, 5, 0, 0⟩] : List Video).length : ℚ)⟩ :=
  interaction_rates_filtered_means [⟨1000, 50, 10, 5, 0, 0⟩] (by decide)

/-- C7: `analyze_interaction_level` on the empty list returns `none`; the
embedding is a total function, so no exception can escape. -/
theorem analyze_interaction_empty : analyze_interaction_level [] = none := rfl

/-- C8: every load failure makes `load_benchmarks` return exactly the
hardcoded default table, field by field; the function is total, so the
failure never reaches the caller. -/
theorem load_benchmarks_default_on_failure (e : String) :
    load_benchmarks (Except.error e) = defaultBenchmarks ∧
      defaultBenchmarks.startup_benchmarks.like_rate_benchmark = 0.0436 ∧
      defaultBenchmarks.startup_benchmarks.coin_rate_benchmark = 0.0101 ∧
      defaultBenchmarks.startup_benchmarks.good_performance_threshold = 0.0499 ∧
      defaultBenchmarks.current_benchmarks.like_rate_benchmark = 0.0439 ∧
      defaultBenchmarks.current_benchmarks.coin_rate_benchmark = 0.0075 ∧
      defaultBenchmarks.current_benchmarks.good_performance_threshold = 0.0552 :=
  ⟨rfl, rfl, rfl, rfl, rfl, rfl, rfl⟩

/-- C9: for every nonnegative `user_value` and arbitrary benchmarks,
`_evaluate_metric` never divides by zero: the interpolation branch forces
`startup_bench ≤ user_value < current_bench`, the last branch forces
`0 ≤ user_value < startup_bench`. -/
theorem evaluate_metric_no_division_by_zero (uv sb cb : ℚ) (h : 0 ≤ uv) :
    (evaluate_metric uv sb cb).isSome = true := by
  rw [evaluate_metric]
  by_cases h1 : cb ≤ uv
  · rw [if_pos h1]; rfl
  · rw [if_neg h1]
    by_cases h2 : sb ≤ uv
    · have hne : cb - sb ≠ 0 :=
        sub_ne_zero.mpr (ne_of_gt (lt_of_le_of_lt h2 (not_le.mp h1)))
      rw [if_pos h2, guardedDiv, if_neg hne]
      rfl
    · have hne : sb ≠ 0 := (lt_of_le_of_lt h (not_le.mp h2)).ne'
      rw [if_neg h2, guardedDiv, if_neg hne]
      rfl

/-- C9 witness: both benchmarks zero, the configuration the claim singles
out, still evaluates without a fault. -/
theorem evaluate_metric_no_division_by_zero_witness :
    (evaluate_metric 0 0 0).isSome = true :=
  evaluate_metric_no_division_by_zero 0 0 0 (by decide)

/-- C10: for every nonempty video list, the `video_count` of both the
stability result and the interaction metrics is the length of the full input
list, zero-view videos included. -/
theorem video_count_counts_all (ts : List ℤ) (videos : List Video) (h : videos ≠ []) :
    (evaluate_up_stability ts videos).video_count = videos.length ∧
      ∃ m, analyze_interaction_level videos = some m ∧ m.video_count = videos.length :=
  ⟨rfl, analyze_video_count videos h⟩

/-- C10 witness: a single video with zero views is excluded from every rate
yet still counted. -/
theorem video_count_counts_all_witness :
    (evaluate_up_stability [] [⟨0, 0, 0, 0, 0, 0⟩]).video_count =
        ([⟨0, 0, 0, 0, 0, 0⟩] : List Video).length ∧
      ∃ m, analyze_interaction_level [⟨0, 0, 0, 0, 0, 0⟩] = some m ∧
        m.video_count = ([⟨0, 0, 0, 0, 0, 0⟩] : List Video).length :=
  video_count_counts_all [] [⟨0, 0, 0, 0, 0, 0⟩] (by decide)

end BilibiliAnalyzer
